import Mathlib

set_option maxHeartbeats 1000000

/-!
Verification of the ziti-mcp SSE transport core: the incremental SSE
parser (src/transport/SSEParser.ts) and the transport state machine
(dist/transport/ZitiSSETransport.js together with dist/transport/ITransport.js).

Modelling conventions:
- JavaScript strings are lists of characters (`List Char`).
- The push-style event emission of the parser and the `emit` calls of the
  transport are modelled by returning, next to the new state, the list of
  events / effects produced during the call, in emission order.
- External collaborators (the HTTP request channel, JSON.parse, timers)
  are passed in as oracles; their observable interactions are recorded as
  effects.
-/

/-- Characters of a string literal. -/
def cs (s : String) : List Char := s.data

/-- Decidable equality for `Except` results, for concrete evaluation. -/
instance instDecEqExcept {e a : Type} [DecidableEq e] [DecidableEq a] :
    DecidableEq (Except e a) :=
  fun x y =>
    match x, y with
    | Except.error e1, Except.error e2 =>
      match decEq e1 e2 with
      | isTrue h => isTrue (h ▸ rfl)
      | isFalse h => isFalse (fun hc => h (Except.error.inj hc))
    | Except.error _, Except.ok _ => isFalse (fun hc => Except.noConfusion hc)
    | Except.ok _, Except.error _ => isFalse (fun hc => Except.noConfusion hc)
    | Except.ok a1, Except.ok a2 =>
      match decEq a1 a2 with
      | isTrue h => isTrue (h ▸ rfl)
      | isFalse h => isFalse (fun hc => h (Except.ok.inj hc))

/-! ## SSE parser (SSEParser.ts) -/

/-- A parsed SSE event (interface `SSEEvent`). -/
structure SSEEvent where
  type : List Char
  data : List Char
  id : Option (List Char)
  retry : Option Nat
deriving DecidableEq

/-- The per-cycle and persistent event fields of the parser: fields
`eventType`, `eventData`, `eventId`, `lastEventId`, `retryInterval` of
class `SSEParser`. -/
structure EventState where
  eventType : List Char
  eventData : List (List Char)
  eventId : Option (List Char)
  lastEventId : Option (List Char)
  retryInterval : Option Nat
deriving DecidableEq

/-- Full parser state: the event fields plus the `buffer` and
`httpHeadersParsed` fields of class `SSEParser`. -/
structure SSEParserState where
  buffer : List Char
  httpHeadersParsed : Bool
  es : EventState
deriving DecidableEq

/-- Field initializers of `SSEParser`. -/
def initEventState : EventState :=
  { eventType := cs "message", eventData := [], eventId := none,
    lastEventId := none, retryInterval := none }

/-- A freshly constructed `SSEParser`. -/
def freshParser : SSEParserState :=
  { buffer := [], httpHeadersParsed := false, es := initEventState }

/-- `resetEvent()`: type back to "message", data cleared, pending id
cleared; `lastEventId` and `retryInterval` persist. -/
def resetEvent (es : EventState) : EventState :=
  { es with eventType := cs "message", eventData := [], eventId := none }

/-- The single optional leading space stripped from a field value
(`if (value.startsWith(' ')) value = value.slice(1)`). -/
def stripOneSpace : List Char → List Char
  | ' ' :: v => v
  | v => v

/-- ASCII whitespace as treated by JavaScript `parseInt` / `\s`. -/
def jsWhitespace (c : Char) : Bool :=
  c == ' ' || c == '\t' || c == '\n' || c == '\r' || c == '\x0b' || c == '\x0c'

/-- Decimal digits folded to a number. -/
def digitsToNat (ds : List Char) : Nat :=
  ds.foldl (fun n c => n * 10 + (c.toNat - '0'.toNat)) 0

/-- JavaScript `parseInt(value, 10)`: skip leading whitespace, optional
sign, longest digit prefix; `none` models NaN. -/
def jsParseInt (v : List Char) : Option Int :=
  let v1 := v.dropWhile jsWhitespace
  let p : Bool × List Char :=
    match v1 with
    | '-' :: r => (true, r)
    | '+' :: r => (false, r)
    | _ => (false, v1)
  let ds := p.2.takeWhile Char.isDigit
  if ds = [] then none
  else if p.1 then some (-(digitsToNat ds : Int)) else some (digitsToNat ds : Int)

/-- The field name of a line: the text before the first colon
(`line.slice(0, colonIndex)`; the whole line when there is no colon). -/
def lineField (line : List Char) : List Char :=
  line.takeWhile (fun c => c != ':')

/-- The field value of a line: the text after the first colon with at
most one leading space stripped (empty when there is no colon). -/
def lineValue (line : List Char) : List Char :=
  match line.dropWhile (fun c => c != ':') with
  | [] => []
  | _ :: v => stripOneSpace v

/-- `processField(field, value)` of `SSEParser`. -/
def processField (es : EventState) (field value : List Char) : EventState :=
  if field = cs "event" then { es with eventType := value }
  else if field = cs "data" then { es with eventData := es.eventData ++ [value] }
  else if field = cs "id" then
    if '\x00' ∈ value then es else { es with eventId := some value }
  else if field = cs "retry" then
    match jsParseInt value with
    | some r => if 0 ≤ r then { es with retryInterval := some r.toNat } else es
    | none => es
  else es

/-- `dispatchEvent()` of `SSEParser`: emit only when data lines were
accumulated; `lastEventId` updates from a pending id. -/
def dispatchEvent (es : EventState) : EventState × List SSEEvent :=
  if es.eventData = [] then (resetEvent es, [])
  else
    let ev : SSEEvent :=
      { type := es.eventType, data := List.intercalate ['\n'] es.eventData,
        id := es.eventId, retry := es.retryInterval }
    let es1 :=
      match es.eventId with
      | some i => { es with lastEventId := some i }
      | none => es
    (resetEvent es1, [ev])

/-- `processLine(line)` of `SSEParser`. -/
def processLine (es : EventState) (line : List Char) : EventState × List SSEEvent :=
  if line = [] then dispatchEvent es
  else if line.head? = some ':' then (es, [])
  else (processField es (lineField line) (lineValue line), [])

/-- The `for (const line of lines)` loop of `processBuffer`. -/
def processLines (es : EventState) : List (List Char) → EventState × List SSEEvent
  | [] => (es, [])
  | l :: ls =>
    let p := processLine es l
    let q := processLines p.1 ls
    (q.1, p.2 ++ q.2)

/-- Drop one trailing carriage return: the effect of the `\r?` part of
`split(/\r?\n/)` on every piece that ends right before a newline. -/
def chompCR (l : List Char) : List Char :=
  if l.getLast? = some '\r' then l.dropLast else l

/-- Split a buffer at every newline: the complete lines (still carrying a
trailing `\r` when present, see `chompCR`) and the trailing partial line.
`buffer.split(/\r?\n/)` equals `(splitNl buffer).1.map chompCR ++ [(splitNl buffer).2]`. -/
def splitNl : List Char → List (List Char) × List Char
  | [] => ([], [])
  | c :: rest =>
    let p := splitNl rest
    if c = '\n' then
      (([] : List Char) :: p.1, p.2)
    else
      match p.1 with
      | [] => ([], c :: p.2)
      | l :: ls => ((c :: l) :: ls, p.2)

/-- `processBuffer()` of `SSEParser`: split on line boundaries, keep the
last incomplete line as the new buffer, process every complete line. -/
def processBuffer (st : SSEParserState) : SSEParserState × List SSEEvent :=
  let p := splitNl st.buffer
  let q := processLines st.es (p.1.map chompCR)
  ({ st with buffer := p.2, es := q.1 }, q.2)

/-- Boolean prefix test used to model `String.prototype.indexOf`. -/
def leadsWith : List Char → List Char → Bool
  | [], _ => true
  | _ :: _, [] => false
  | p :: ps, c :: rest => p == c && leadsWith ps rest

/-- The HTTP header/body separator `\r\n\r\n`. -/
def sepCRLF : List Char := ['\r', '\n', '\r', '\n']

/-- `buffer.indexOf('\r\n\r\n')` followed by `buffer.slice(headerEnd + 4)`:
`some rest` when the separator occurs, with `rest` the text after its
first occurrence; `none` when it does not occur. -/
def dropHeaders : List Char → Option (List Char)
  | [] => none
  | c :: rest =>
    if leadsWith sepCRLF (c :: rest) then some ((c :: rest).drop 4)
    else dropHeaders rest

/-- `feed(chunk)` of `SSEParser`. -/
def feed (st : SSEParserState) (chunk : List Char) : SSEParserState × List SSEEvent :=
  let buf := st.buffer ++ chunk
  if st.httpHeadersParsed then
    processBuffer { st with buffer := buf }
  else
    match dropHeaders buf with
    | some rest => processBuffer { st with buffer := rest, httpHeadersParsed := true }
    | none => ({ st with buffer := buf }, [])

/-- A sequence of `feed` calls, concatenating emitted events. -/
def feedAll (st : SSEParserState) : List (List Char) → SSEParserState × List SSEEvent
  | [] => (st, [])
  | c :: rest =>
    let p := feed st c
    let q := feedAll p.1 rest
    (q.1, p.2 ++ q.2)

/-- `reset()` of `SSEParser`: clears all state. -/
def resetParserState (_st : SSEParserState) : SSEParserState := freshParser

/-- `getLastEventId()`. -/
def getLastEventId (st : SSEParserState) : Option (List Char) := st.es.lastEventId

/-- `getRetryInterval()`. -/
def getRetryInterval (st : SSEParserState) : Option Nat := st.es.retryInterval

/-- The input contains the CRLF CRLF header/body separator somewhere. -/
def hasSeparator (l : List Char) : Prop := ∃ u v, l = u ++ sepCRLF ++ v

/-- The values of the `data:` lines of a cycle, in field order, with at
most one leading space stripped from each. -/
def dataValues (ls : List (List Char)) : List (List Char) :=
  (ls.filter (fun l => lineField l == cs "data")).map lineValue

/-! ## Transport state machine (ITransport.js, ZitiSSETransport.js) -/

/-- `enum TransportState` of ITransport. -/
inductive TransportState where
  | DISCONNECTED
  | CONNECTING
  | CONNECTED
  | RECONNECTING
  | CLOSED
deriving DecidableEq

/-- The resolved transport options (`BaseTransport` constructor). -/
structure TransportOptions where
  autoReconnect : Bool
  maxReconnectAttempts : Nat
  reconnectDelay : Nat
  connectTimeout : Nat
  requestTimeout : Nat
deriving DecidableEq

/-- The defaults merged in by the `BaseTransport` constructor. -/
def defaultOptions : TransportOptions :=
  { autoReconnect := true, maxReconnectAttempts := 3, reconnectDelay := 1000,
    connectTimeout := 30000, requestTimeout := 60000 }

/-- A JSON-RPC message id (string or number). -/
inductive MsgId where
  | num (n : Int)
  | str (s : List Char)
deriving DecidableEq

/-- Opaque representation of an arbitrary parsed JSON value. -/
abbrev JsonPayload := List Char

/-- The `error` member of a JSON-RPC message. -/
structure RpcError where
  code : Int
  message : List Char
deriving DecidableEq

/-- The JSON-RPC envelope (`JSONRPCMessage`). -/
structure RpcMessage where
  id : Option MsgId
  method : Option (List Char)
  params : Option JsonPayload
  result : Option JsonPayload
  error : Option RpcError
deriving DecidableEq

/-- An observable effect of a transport operation: an `emit`, a timer
operation, a network interaction or a log line, in occurrence order. -/
inductive Eff where
  | stateChange (s : TransportState)
  | connectedNotif
  | disconnectedNotif (reason : List Char)
  | reconnectingNotif (attempt : Nat)
  | errorNotif (msg : List Char)
  | messageNotif (m : RpcMessage)
  | resolveReq (i : MsgId) (result : Option JsonPayload)
  | rejectReq (i : MsgId) (msg : List Char)
  | clearTimer (tm : Nat)
  | closeStream
  | httpPost (m : RpcMessage)
  | sleep (ms : Nat)
  | logError (msg : List Char)
deriving DecidableEq

/-- The mutable state of a `ZitiSSETransport` instance (together with the
`_state`/`_sessionId` fields of `BaseTransport`). Pending request entries
are the id-keyed map to the entry timer handle; the resolve/reject
handles are modelled by the `resolveReq`/`rejectReq` effects. -/
structure Transport where
  state : TransportState
  sessionId : Option (List Char)
  reconnectAttempts : Nat
  isProcessingQueue : Bool
  messageQueue : List RpcMessage
  pendingRequests : List (MsgId × Nat)
  streamOpen : Bool
  parser : SSEParserState
  opts : TransportOptions
deriving DecidableEq

/-- A freshly constructed transport. -/
def initTransport (opts : TransportOptions) : Transport :=
  { state := TransportState.DISCONNECTED, sessionId := none,
    reconnectAttempts := 0, isProcessingQueue := false, messageQueue := [],
    pendingRequests := [], streamOpen := false, parser := freshParser,
    opts := opts }

/-- `Map.prototype.get` on the pending-request map. -/
def getPending (i : MsgId) : List (MsgId × Nat) → Option Nat
  | [] => none
  | p :: rest => if p.1 = i then some p.2 else getPending i rest

/-- `Map.prototype.set` on the pending-request map. -/
def setPending (i : MsgId) (tm : Nat) : List (MsgId × Nat) → List (MsgId × Nat)
  | [] => [(i, tm)]
  | p :: rest => if p.1 = i then (i, tm) :: rest else p :: setPending i tm rest

/-- `Map.prototype.delete` on the pending-request map. -/
def delPending (i : MsgId) : List (MsgId × Nat) → List (MsgId × Nat)
  | [] => []
  | p :: rest => if p.1 = i then rest else p :: delPending i rest

/-- `setState(state)` of `BaseTransport`: assign and emit `stateChange`
only when the state actually changes. -/
def setState (t : Transport) (s : TransportState) : Transport × List Eff :=
  if t.state = s then (t, []) else ({ t with state := s }, [Eff.stateChange s])

/-- `isReady()` of `BaseTransport`. -/
def isReady (t : Transport) : Bool :=
  t.state == TransportState.CONNECTED && t.sessionId.isSome

/-- `cleanup()` of `ZitiSSETransport`: reject every pending request and
clear its timer, close the stream when present, reset the parser, clear
the session id. -/
def cleanup (t : Transport) : Transport × List Eff :=
  let rejEffs :=
    (t.pendingRequests.map
      (fun p => [Eff.clearTimer p.2, Eff.rejectReq p.1 (cs "Transport disconnected")])).flatten
  let streamEffs := if t.streamOpen then [Eff.closeStream] else []
  ({ t with pendingRequests := [], streamOpen := false,
            parser := freshParser, sessionId := none },
   rejEffs ++ streamEffs)

/-- `disconnect()` of `ZitiSSETransport`. -/
def disconnect (t : Transport) : Transport × List Eff :=
  let p := setState t TransportState.CLOSED
  let q := cleanup p.1
  (q.1, p.2 ++ q.2 ++ [Eff.disconnectedNotif (cs "User requested disconnect")])

/-- The synchronous prefix of `reconnect()` of `ZitiSSETransport`, up to
and including the scheduled backoff delay (`sleep`); the redial after the
delay is a separate `connect()` step. -/
def reconnectStep (t : Transport) : Transport × List Eff :=
  if t.opts.maxReconnectAttempts ≤ t.reconnectAttempts then
    let p := setState t TransportState.DISCONNECTED
    (p.1, p.2 ++ [Eff.disconnectedNotif (cs "Max reconnect attempts exceeded")])
  else
    let t1 := { t with reconnectAttempts := t.reconnectAttempts + 1 }
    let p := setState t1 TransportState.RECONNECTING
    let delay := t.opts.reconnectDelay * 2 ^ (t1.reconnectAttempts - 1)
    let q := cleanup p.1
    (q.1, p.2 ++ [Eff.reconnectingNotif t1.reconnectAttempts] ++ q.2 ++ [Eff.sleep delay])

/-- `handleStreamError(error)` of `ZitiSSETransport`. -/
def handleStreamError (t : Transport) (errMsg : List Char) : Transport × List Eff :=
  if t.opts.autoReconnect = true ∧ t.state ≠ TransportState.CLOSED then
    let p := reconnectStep t
    (p.1, Eff.errorNotif errMsg :: p.2)
  else
    let p := setState t TransportState.DISCONNECTED
    (p.1, Eff.errorNotif errMsg :: (p.2 ++ [Eff.disconnectedNotif errMsg]))

/-- `handleStreamClose()` of `ZitiSSETransport`. -/
def handleStreamClose (t : Transport) : Transport × List Eff :=
  if t.state = TransportState.CLOSED then (t, [])
  else
    let t0 := { t with sessionId := none }
    if t0.opts.autoReconnect then reconnectStep t0
    else
      let p := setState t0 TransportState.DISCONNECTED
      (p.1, p.2 ++ [Eff.disconnectedNotif (cs "Stream closed")])

/-- The regex match `/sessionId=([^&\s]+)/` on the endpoint event data:
the first position where `sessionId=` is followed by at least one
character that is neither `&` nor whitespace yields the maximal such
run. -/
def extractSessionId : List Char → Option (List Char)
  | [] => none
  | c :: rest =>
    if leadsWith (cs "sessionId=") (c :: rest) then
      let tok := ((c :: rest).drop 10).takeWhile (fun ch => ch != '&' && !jsWhitespace ch)
      if tok = [] then extractSessionId rest else some tok
    else extractSessionId rest

/-- The HTTP response of the outbound send collaborator. -/
structure HttpResponse where
  status : Nat
  body : List Char
deriving DecidableEq

/-- `sendImmediate(message)` of `ZitiSSETransport`, as a function of the
`httpRequest` outcome: a thrown transport error or a response with a
status of 400 or above is re-thrown wrapped in `Failed to send message:`. -/
def sendImmediateResult (r : Except (List Char) HttpResponse) : Except (List Char) Unit :=
  match r with
  | Except.error e => Except.error (cs "Failed to send message: " ++ e)
  | Except.ok resp =>
    if 400 ≤ resp.status then
      Except.error (cs "Failed to send message: " ++ cs "Server error " ++
        Nat.toDigits 10 resp.status ++ cs ": " ++ resp.body)
    else Except.ok ()

/-- `send(message)` of `ZitiSSETransport`: queue when not ready, else
dispatch immediately; `disp` is the `httpRequest` oracle. -/
def send (t : Transport) (disp : RpcMessage → Except (List Char) HttpResponse)
    (m : RpcMessage) : Transport × List Eff × Except (List Char) Unit :=
  if isReady t then (t, [Eff.httpPost m], sendImmediateResult (disp m))
  else ({ t with messageQueue := t.messageQueue ++ [m] }, [], Except.ok ())

/-- The `while` loop of `processQueuedMessages`, started in a ready
state: pop and dispatch until the queue is empty; a dispatch failure is
caught OUTSIDE the loop, so it ends the drain. Returns the remaining
queue and the effects. -/
def drainList (disp : RpcMessage → Except (List Char) HttpResponse) :
    List RpcMessage → List RpcMessage × List Eff
  | [] => ([], [])
  | m :: rest =>
    match sendImmediateResult (disp m) with
    | Except.ok _ =>
      let p := drainList disp rest
      (p.1, Eff.httpPost m :: p.2)
    | Except.error e =>
      (rest, [Eff.httpPost m,
              Eff.logError (cs "Error processing queued messages: " ++ e)])

/-- `processQueuedMessages()` of `ZitiSSETransport`: no-op when a drain
is already running or the loop guard fails at entry; the
`isProcessingQueue` flag is set for the duration of the call and reset
in the `finally` block. -/
def processQueuedMessages (disp : RpcMessage → Except (List Char) HttpResponse)
    (t : Transport) : Transport × List Eff :=
  if t.isProcessingQueue then (t, [])
  else if isReady t then
    let p := drainList disp t.messageQueue
    ({ t with messageQueue := p.1 }, p.2)
  else (t, [])

/-- `handleEndpointEvent(event)` of `ZitiSSETransport`. -/
def handleEndpointEvent (disp : RpcMessage → Except (List Char) HttpResponse)
    (t : Transport) (data : List Char) : Transport × List Eff :=
  match extractSessionId data with
  | some tok =>
    let t1 := { t with sessionId := some tok }
    let p := setState t1 TransportState.CONNECTED
    let t3 := { p.1 with reconnectAttempts := 0 }
    let q := processQueuedMessages disp t3
    (q.1, p.2 ++ [Eff.connectedNotif] ++ q.2)
  | none => (t, [Eff.errorNotif (cs "Invalid endpoint event: missing sessionId")])

/-- `handleMessageEvent(event)` of `ZitiSSETransport`, as a function of
the `JSON.parse` outcome on the event data. -/
def handleMessageEvent (t : Transport) (parsed : Except (List Char) RpcMessage) :
    Transport × List Eff :=
  match parsed with
  | Except.error e =>
    (t, [Eff.logError (cs "Failed to parse message"),
         Eff.errorNotif (cs "Failed to parse MCP message: " ++ e)])
  | Except.ok msg =>
    match msg.id with
    | some i =>
      match getPending i t.pendingRequests with
      | some tm =>
        let t1 := { t with pendingRequests := delPending i t.pendingRequests }
        match msg.error with
        | some err => (t1, [Eff.clearTimer tm, Eff.rejectReq i err.message])
        | none => (t1, [Eff.clearTimer tm, Eff.resolveReq i msg.result])
      | none => (t, [Eff.messageNotif msg])
    | none => (t, [Eff.messageNotif msg])

/-- `handleSSEEvent(event)` of `ZitiSSETransport`: dispatch on the event
type; `jsonParse` is the `JSON.parse` oracle for message events. -/
def handleSSEEvent (disp : RpcMessage → Except (List Char) HttpResponse)
    (jsonParse : List Char → Except (List Char) RpcMessage)
    (t : Transport) (ev : SSEEvent) : Transport × List Eff :=
  if ev.type = cs "endpoint" then handleEndpointEvent disp t ev.data
  else if ev.type = cs "message" then handleMessageEvent t (jsonParse ev.data)
  else if ev.type = cs "reconnect" then reconnectStep t
  else (t, [])

/-- The synchronous prefix of a `connect()` call whose stream creation
succeeds: no-op when already connected, otherwise transition to
CONNECTING and install the stream. -/
def connectStart (t : Transport) : Transport × List Eff :=
  if t.state = TransportState.CONNECTED then (t, [])
  else
    let p := setState t TransportState.CONNECTING
    ({ p.1 with streamOpen := true }, p.2)

/-- A `connect()` call that fails (initialization check, stream
creation, timeout or pre-session closure): the catch block resets the
state to DISCONNECTED. `opened` tells whether the stream had already
been installed when the failure was thrown. -/
def connectFail (opened : Bool) (t : Transport) : Transport × List Eff :=
  if t.state = TransportState.CONNECTED then (t, [])
  else
    let p := setState t TransportState.CONNECTING
    let t1 := if opened then { p.1 with streamOpen := true } else p.1
    let q := setState t1 TransportState.DISCONNECTED
    (q.1, p.2 ++ q.2)

/-- `request(message)` of `ZitiSSETransport`: register the pending entry
with its timeout timer, then `send`; a send failure clears the timer,
removes the entry and rejects. `timerId` is the timer-handle oracle. -/
def request (t : Transport) (disp : RpcMessage → Except (List Char) HttpResponse)
    (m : RpcMessage) (timerId : Nat) : Transport × List Eff × Except (List Char) Unit :=
  match m.id with
  | none => (t, [], Except.error (cs "Request message must have an id"))
  | some i =>
    let t1 := { t with pendingRequests := setPending i timerId t.pendingRequests }
    let p := send t1 disp m
    match p.2.2 with
    | Except.error e =>
      ({ p.1 with pendingRequests := delPending i p.1.pendingRequests },
       p.2.1 ++ [Eff.clearTimer timerId, Eff.rejectReq i e], Except.error e)
    | Except.ok _ => (p.1, p.2.1, Except.ok ())

/-- One poll of the `checkSession` closure inside `waitForSession()`:
resolve when a session id is present, reject with the pre-session
closure error when the state is DISCONNECTED, otherwise re-poll. -/
inductive WaitStep where
  | established
  | closedBeforeSession
  | keepWaiting
deriving DecidableEq

/-- The decision taken by one `checkSession` poll. -/
def checkSessionStep (t : Transport) : WaitStep :=
  if t.sessionId.isSome then WaitStep.established
  else if t.state = TransportState.DISCONNECTED then WaitStep.closedBeforeSession
  else WaitStep.keepWaiting

/-- The states a single transport instance can reach along its
sequential event timeline, under arbitrary collaborator behaviour
(oracles quantified per step). -/
inductive Reachable (opts : TransportOptions) : Transport → Prop where
  | init : Reachable opts (initTransport opts)
  | sse (disp : RpcMessage → Except (List Char) HttpResponse)
      (jsonParse : List Char → Except (List Char) RpcMessage)
      (ev : SSEEvent) {t : Transport} :
      Reachable opts t → Reachable opts (handleSSEEvent disp jsonParse t ev).1
  | streamErr (e : List Char) {t : Transport} :
      Reachable opts t → Reachable opts (handleStreamError t e).1
  | streamClose {t : Transport} :
      Reachable opts t → Reachable opts (handleStreamClose t).1
  | disc {t : Transport} :
      Reachable opts t → Reachable opts (disconnect t).1
  | connectOk {t : Transport} :
      Reachable opts t → Reachable opts (connectStart t).1
  | connectErr (opened : Bool) {t : Transport} :
      Reachable opts t → Reachable opts (connectFail opened t).1
  | sendStep (disp : RpcMessage → Except (List Char) HttpResponse)
      (m : RpcMessage) {t : Transport} :
      Reachable opts t → Reachable opts (send t disp m).1
  | requestStep (disp : RpcMessage → Except (List Char) HttpResponse)
      (m : RpcMessage) (timerId : Nat) {t : Transport} :
      Reachable opts t → Reachable opts (request t disp m timerId).1
  | drainStep (disp : RpcMessage → Except (List Char) HttpResponse) {t : Transport} :
      Reachable opts t → Reachable opts (processQueuedMessages disp t).1

/-! ## Concrete instances used in counterexamples and witnesses -/

/-- Options with auto-reconnect disabled. -/
def opts0 : TransportOptions :=
  { autoReconnect := false, maxReconnectAttempts := 3, reconnectDelay := 1000,
    connectTimeout := 30000, requestTimeout := 60000 }

/-- An outbound-send oracle that is never consulted. -/
def disp0 : RpcMessage → Except (List Char) HttpResponse :=
  fun _ => Except.error (cs "unused")

/-- A JSON-parse oracle that is never consulted. -/
def jparse0 : List Char → Except (List Char) RpcMessage :=
  fun _ => Except.error (cs "unused")

/-- A server-pushed endpoint event carrying a session id. -/
def epEv : SSEEvent :=
  { type := cs "endpoint", data := cs "/message?sessionId=abc", id := none,
    retry := none }

/-- A transport brought to CONNECTED with session `abc` by a connect and
an endpoint event. -/
def tConnected : Transport :=
  (handleSSEEvent disp0 jparse0 (connectStart (initTransport opts0)).1 epEv).1

/-- The transport after a stream error hits `tConnected` with
auto-reconnect disabled. -/
def badT : Transport := (handleStreamError tConnected (cs "boom")).1

/-- An outbound-send oracle answering every POST with a 500. -/
def disp500 : RpcMessage → Except (List Char) HttpResponse :=
  fun _ => Except.ok { status := 500, body := cs "oops" }

/-- Two queued notification messages. -/
def mA : RpcMessage :=
  { id := none, method := some (cs "notifications/a"), params := none,
    result := none, error := none }

def mB : RpcMessage :=
  { id := none, method := some (cs "notifications/b"), params := none,
    result := none, error := none }

/-- A ready transport (CONNECTED with a session id). -/
def tReady : Transport :=
  { (initTransport defaultOptions) with
      state := TransportState.CONNECTED,
      sessionId := some (cs "s1") }

/-- A ready transport with two queued messages. -/
def t6 : Transport := { tReady with messageQueue := [mA, mB] }

/-- A ready transport with one pending request entry (id 42, timer 7). -/
def t4 : Transport := { tReady with pendingRequests := [(MsgId.num 42, 7)] }

/-- A response message matching pending id 42. -/
def msgRes : RpcMessage :=
  { id := some (MsgId.num 42), method := none, params := none,
    result := some (cs "ok"), error := none }

/-- An error response with an id (43) that is not pending in `t4`. -/
def msgErr : RpcMessage :=
  { id := some (MsgId.num 43), method := none, params := none, result := none,
    error := some { code := -1, message := cs "bad" } }

/-- A transport whose reconnect budget is exhausted. -/
def tMax : Transport := { (initTransport defaultOptions) with reconnectAttempts := 3 }

/-! ## Parser lemmas: line splitting and feeding compose -/

theorem processLines_append (es : EventState) (l1 l2 : List (List Char)) :
    processLines es (l1 ++ l2) =
      ((processLines (processLines es l1).1 l2).1,
       (processLines es l1).2 ++ (processLines (processLines es l1).1 l2).2) := by
  induction l1 generalizing es with
  | nil => simp [processLines]
  | cons l ls ih => simp [processLines, ih, List.append_assoc]

theorem splitNl_append (a b : List Char) :
    splitNl (a ++ b) =
      ((splitNl a).1 ++ (splitNl ((splitNl a).2 ++ b)).1,
       (splitNl ((splitNl a).2 ++ b)).2) := by
  induction a with
  | nil => simp [splitNl]
  | cons c a ih =>
    by_cases hc : c = '\n'
    · subst hc
      simp [splitNl, ih]
    · simp only [List.cons_append, splitNl, if_neg hc, List.append_eq]
      rw [ih]
      cases h1 : (splitNl a).1 with
      | nil =>
        simp only [h1, List.nil_append]
        cases h2 : (splitNl ((splitNl a).2 ++ b)).1 with
        | nil => simp [splitNl, h1, h2, hc]
        | cons q qs => simp [splitNl, h1, h2, hc]
      | cons l ls => simp [h1]

theorem splitNl_append_fst (a b : List Char) :
    (splitNl (a ++ b)).1 = (splitNl a).1 ++ (splitNl ((splitNl a).2 ++ b)).1 := by
  rw [splitNl_append]

theorem splitNl_append_snd (a b : List Char) :
    (splitNl (a ++ b)).2 = (splitNl ((splitNl a).2 ++ b)).2 := by
  rw [splitNl_append]

theorem processBuffer_mk (buf : List Char) (hp : Bool) (es : EventState) :
    processBuffer ⟨buf, hp, es⟩ =
      (⟨(splitNl buf).2, hp, (processLines es ((splitNl buf).1.map chompCR)).1⟩,
       (processLines es ((splitNl buf).1.map chompCR)).2) := rfl

theorem processBuffer_append (buf b : List Char) (hp : Bool) (es : EventState) :
    processBuffer ⟨buf ++ b, hp, es⟩ =
      ((processBuffer ⟨(splitNl buf).2 ++ b, hp,
          (processLines es ((splitNl buf).1.map chompCR)).1⟩).1,
       (processLines es ((splitNl buf).1.map chompCR)).2 ++
         (processBuffer ⟨(splitNl buf).2 ++ b, hp,
           (processLines es ((splitNl buf).1.map chompCR)).1⟩).2) := by
  simp only [processBuffer_mk]
  rw [splitNl_append_fst buf b, splitNl_append_snd buf b, List.map_append,
    processLines_append]

theorem leadsWith_ex (p l : List Char) : leadsWith p l = true ↔ ∃ t, l = p ++ t := by
  induction p generalizing l with
  | nil => simp [leadsWith]
  | cons x ps ih =>
    cases l with
    | nil =>
      simp only [leadsWith, List.cons_append]
      constructor
      · intro h; exact absurd h (by simp)
      · rintro ⟨t, ht⟩; exact absurd ht (by simp)
    | cons c rest =>
      simp only [leadsWith, Bool.and_eq_true, beq_iff_eq, ih, List.cons_append]
      constructor
      · rintro ⟨rfl, t, rfl⟩; exact ⟨t, rfl⟩
      · rintro ⟨t, ht⟩
        injection ht with h1 h2
        exact ⟨h1.symm, t, h2⟩

theorem leadsWith_append_false (p l y : List Char) (h : leadsWith p l = false)
    (hlen : p.length ≤ l.length) : leadsWith p (l ++ y) = false := by
  induction p generalizing l with
  | nil => simp [leadsWith] at h
  | cons x ps ih =>
    cases l with
    | nil => simp at hlen
    | cons c rest =>
      simp only [leadsWith, Bool.and_eq_false_iff] at h
      simp only [List.cons_append, leadsWith, Bool.and_eq_false_iff]
      rcases h with h | h
      · exact Or.inl h
      · exact Or.inr (ih rest h (by simpa using Nat.le_of_succ_le_succ hlen))

theorem dropHeaders_length (l r : List Char) (h : dropHeaders l = some r) :
    4 ≤ l.length := by
  induction l with
  | nil => simp [dropHeaders] at h
  | cons c rest ih =>
    by_cases hl : leadsWith sepCRLF (c :: rest) = true
    · obtain ⟨t, ht⟩ := (leadsWith_ex _ _).mp hl
      rw [ht]
      simp [sepCRLF]
    · have h' : dropHeaders rest = some r := by
        simpa [dropHeaders, hl] using h
      calc 4 ≤ rest.length := ih h'
        _ ≤ (c :: rest).length := by simp

theorem dropHeaders_append_some (x y r : List Char) (h : dropHeaders x = some r) :
    dropHeaders (x ++ y) = some (r ++ y) := by
  induction x with
  | nil => simp [dropHeaders] at h
  | cons c rest ih =>
    by_cases hl : leadsWith sepCRLF (c :: rest) = true
    · obtain ⟨t, ht⟩ := (leadsWith_ex _ _).mp hl
      have hr : r = t := by
        have h2 := h
        rw [ht] at h2
        simpa [dropHeaders, leadsWith, sepCRLF] using h2.symm
      subst hr
      rw [ht, List.append_assoc]
      simp [dropHeaders, leadsWith, sepCRLF]
    · have hlen : 4 ≤ (c :: rest).length := dropHeaders_length _ _ h
      have h' : dropHeaders rest = some r := by
        simpa [dropHeaders, hl] using h
      have hl2 : leadsWith sepCRLF ((c :: rest) ++ y) = false :=
        leadsWith_append_false _ _ _ (by simpa using hl) (by simpa [sepCRLF] using hlen)
      have hstep : dropHeaders (c :: (rest ++ y)) = dropHeaders (rest ++ y) := by
        simp only [dropHeaders]
        rw [if_neg]
        simp only [List.cons_append] at hl2
        simp [hl2]
      rw [List.cons_append, hstep]
      exact ih h'

theorem feed_mk_parsed (buf chunk : List Char) (es : EventState) :
    feed ⟨buf, true, es⟩ chunk = processBuffer ⟨buf ++ chunk, true, es⟩ := rfl

theorem feed_mk_unparsed (buf chunk : List Char) (es : EventState) :
    feed ⟨buf, false, es⟩ chunk =
      match dropHeaders (buf ++ chunk) with
      | some rest => processBuffer ⟨rest, true, es⟩
      | none => (⟨buf ++ chunk, false, es⟩, []) := rfl

theorem feed_append (buf a b : List Char) (hp : Bool) (es : EventState) :
    feed ⟨buf, hp, es⟩ (a ++ b) =
      ((feed (feed ⟨buf, hp, es⟩ a).1 b).1,
       (feed ⟨buf, hp, es⟩ a).2 ++ (feed (feed ⟨buf, hp, es⟩ a).1 b).2) := by
  cases hp with
  | true =>
    rw [feed_mk_parsed, feed_mk_parsed, show buf ++ (a ++ b) = (buf ++ a) ++ b by
      rw [List.append_assoc]]
    rw [processBuffer_append (buf ++ a) b true es]
    rw [processBuffer_mk (buf ++ a) true es]
    rw [feed_mk_parsed]
  | false =>
    rw [feed_mk_unparsed, feed_mk_unparsed,
      show buf ++ (a ++ b) = (buf ++ a) ++ b by rw [List.append_assoc]]
    cases hd : dropHeaders (buf ++ a) with
    | none =>
      simp only
      rw [feed_mk_unparsed]
      cases hd2 : dropHeaders ((buf ++ a) ++ b) with
      | none => simp
      | some r => simp
    | some r =>
      simp only
      rw [dropHeaders_append_some _ b _ hd]
      simp only
      rw [processBuffer_mk r true es, feed_mk_parsed]
      exact processBuffer_append r b true es

theorem feed_append_st (st : SSEParserState) (a b : List Char) :
    feed st (a ++ b) =
      ((feed (feed st a).1 b).1, (feed st a).2 ++ (feed (feed st a).1 b).2) := by
  obtain ⟨buf, hp, es⟩ := st
  exact feed_append buf a b hp es

theorem feedAll_cons_join (st : SSEParserState) (a : List Char)
    (chunks : List (List Char)) :
    feedAll st (a :: chunks) = feed st (a ++ chunks.flatten) := by
  induction chunks generalizing st a with
  | nil => simp [feedAll]
  | cons b rest ih =>
    have hstep : feedAll st (a :: b :: rest) =
        ((feedAll (feed st a).1 (b :: rest)).1,
         (feed st a).2 ++ (feedAll (feed st a).1 (b :: rest)).2) := by
      simp [feedAll]
    rw [hstep, ih]
    rw [List.flatten_cons, show a ++ (b ++ rest.flatten) = (a ++ b) ++ rest.flatten from
      (List.append_assoc a b rest.flatten).symm]
    rw [feed_append_st st (a ++ b) rest.flatten]
    rw [feed_append_st st a b]
    rw [feed_append_st (feed st a).1 b rest.flatten]
    simp [List.append_assoc]

/-! ## Parser lemmas: a complete single cycle -/

theorem processLines_cons_fst (es : EventState) (l : List Char) (ls : List (List Char)) :
    (processLines es (l :: ls)).1 = (processLines (processLine es l).1 ls).1 := rfl

theorem processLines_cons_snd (es : EventState) (l : List Char) (ls : List (List Char)) :
    (processLines es (l :: ls)).2 =
      (processLine es l).2 ++ (processLines (processLine es l).1 ls).2 := rfl

theorem processField_eventData (es : EventState) (f v : List Char) :
    (processField es f v).eventData =
      es.eventData ++ (if f = cs "data" then [v] else []) := by
  by_cases hd : f = cs "data"
  · subst hd
    unfold processField
    rw [if_neg (by decide : ¬ (cs "data" = cs "event"))]
    rw [if_pos rfl, if_pos rfl]
  · rw [if_neg hd, List.append_nil]
    unfold processField
    by_cases h1 : f = cs "event"
    · rw [if_pos h1]
    · rw [if_neg h1, if_neg hd]
      by_cases h3 : f = cs "id"
      · rw [if_pos h3]
        by_cases h5 : '\x00' ∈ v
        · rw [if_pos h5]
        · rw [if_neg h5]
      · rw [if_neg h3]
        by_cases h4 : f = cs "retry"
        · rw [if_pos h4]
          cases hr : jsParseInt v with
          | none => rfl
          | some r =>
            by_cases h6 : 0 ≤ r
            · simp [h6]
            · simp [h6]
        · rw [if_neg h4]

theorem processLine_snd_ne_nil (es : EventState) (l : List Char) (h : l ≠ []) :
    (processLine es l).2 = [] := by
  unfold processLine
  rw [if_neg h]
  by_cases hc : l.head? = some ':'
  · rw [if_pos hc]
  · rw [if_neg hc]

theorem lineField_comment (l : List Char) (hc : l.head? = some ':') :
    lineField l = [] := by
  cases l with
  | nil => simp at hc
  | cons c rest =>
    simp only [List.head?_cons, Option.some.injEq] at hc
    subst hc
    simp [lineField]

theorem processLine_fst_eventData (es : EventState) (l : List Char) (h : l ≠ []) :
    (processLine es l).1.eventData =
      es.eventData ++ (if lineField l = cs "data" then [lineValue l] else []) := by
  unfold processLine
  rw [if_neg h]
  by_cases hc : l.head? = some ':'
  · rw [if_pos hc, lineField_comment l hc]
    rw [if_neg (by decide : ¬ (([] : List Char) = cs "data"))]
    simp
  · rw [if_neg hc]
    exact processField_eventData es (lineField l) (lineValue l)

theorem processLines_cycle (es : EventState) (ls : List (List Char))
    (h : ∀ l ∈ ls, l ≠ []) :
    (processLines es ls).2 = [] ∧
    (processLines es ls).1.eventData = es.eventData ++ dataValues ls := by
  induction ls generalizing es with
  | nil => simp [processLines, dataValues]
  | cons l ls ih =>
    have hl : l ≠ [] := h l (List.mem_cons_self l ls)
    have hrest : ∀ x ∈ ls, x ≠ [] := fun x hx => h x (List.mem_cons_of_mem _ hx)
    obtain ⟨ih2, ih1⟩ := ih (processLine es l).1 hrest
    refine ⟨?_, ?_⟩
    · rw [processLines_cons_snd, processLine_snd_ne_nil es l hl, ih2]
      rfl
    · rw [processLines_cons_fst, ih1, processLine_fst_eventData es l hl]
      by_cases hf : lineField l = cs "data"
      · simp [dataValues, List.filter_cons, hf]
      · simp [dataValues, List.filter_cons, hf]

theorem splitNl_line (l rest : List Char) (h : '\n' ∉ l) :
    splitNl (l ++ '\n' :: rest) = (l :: (splitNl rest).1, (splitNl rest).2) := by
  induction l with
  | nil => simp [splitNl]
  | cons c l ih =>
    have hc : c ≠ '\n' := fun e => h (e ▸ List.mem_cons_self c l)
    have h' : '\n' ∉ l := fun hl => h (List.mem_cons_of_mem _ hl)
    simp only [List.cons_append, splitNl, if_neg hc, List.append_eq]
    rw [ih h']

theorem splitNl_cycle (ls : List (List Char)) (rest : List Char)
    (h : ∀ l ∈ ls, '\n' ∉ l) :
    splitNl ((ls.map (fun l => l ++ ['\n'])).flatten ++ rest) =
      (ls ++ (splitNl rest).1, (splitNl rest).2) := by
  induction ls with
  | nil => simp
  | cons l ls ih =>
    have hl : '\n' ∉ l := h l (List.mem_cons_self l ls)
    have hrest : ∀ x ∈ ls, '\n' ∉ x := fun x hx => h x (List.mem_cons_of_mem _ hx)
    simp only [List.map_cons, List.flatten_cons, List.append_assoc]
    rw [show l ++ (['\n'] ++ ((ls.map (fun l => l ++ ['\n'])).flatten ++ rest)) =
      l ++ '\n' :: ((ls.map (fun l => l ++ ['\n'])).flatten ++ rest) from rfl]
    rw [splitNl_line _ _ hl, ih hrest]
    simp

theorem chompCR_of_no_cr (l : List Char) (h : l.getLast? ≠ some '\r') :
    chompCR l = l := by
  unfold chompCR
  rw [if_neg h]

theorem map_chompCR_id (ls : List (List Char))
    (h : ∀ l ∈ ls, l.getLast? ≠ some '\r') : ls.map chompCR = ls := by
  induction ls with
  | nil => rfl
  | cons l ls ih =>
    rw [List.map_cons, chompCR_of_no_cr l (h l (List.mem_cons_self l ls)),
      ih (fun x hx => h x (List.mem_cons_of_mem _ hx))]

theorem dataValues_ne_nil (ls : List (List Char)) (l : List Char)
    (hl : l ∈ ls) (hf : lineField l = cs "data") : dataValues ls ≠ [] := by
  unfold dataValues
  intro hcon
  rw [List.map_eq_nil_iff] at hcon
  have hmem : l ∈ ls.filter (fun l => lineField l == cs "data") :=
    List.mem_filter.mpr ⟨hl, by simp [hf]⟩
  rw [hcon] at hmem
  simp at hmem

/-! ## Parser lemmas: the header separator -/

theorem dropHeaders_of_sep (u v : List Char) :
    dropHeaders (u ++ sepCRLF ++ v) ≠ none := by
  induction u with
  | nil =>
    simp [dropHeaders, sepCRLF, leadsWith]
  | cons c u ih =>
    by_cases hl : leadsWith sepCRLF ((c :: u) ++ sepCRLF ++ v) = true
    · simp only [List.cons_append, dropHeaders] at *
      rw [if_pos (by simpa using hl)]
      simp
    · simp only [List.cons_append, dropHeaders] at *
      rw [if_neg (by simpa using hl)]
      exact ih

theorem hasSeparator_iff (l : List Char) : hasSeparator l ↔ dropHeaders l ≠ none := by
  constructor
  · rintro ⟨u, v, rfl⟩
    exact dropHeaders_of_sep u v
  · intro h
    induction l with
    | nil => simp [dropHeaders] at h
    | cons c rest ih =>
      by_cases hl : leadsWith sepCRLF (c :: rest) = true
      · obtain ⟨t, ht⟩ := (leadsWith_ex _ _).mp hl
        exact ⟨[], t, by simpa using ht⟩
      · have h' : dropHeaders rest ≠ none := by
          simpa [dropHeaders, hl] using h
        obtain ⟨u, v, huv⟩ := ih h'
        exact ⟨c :: u, v, by simp [huv]⟩

theorem dropHeaders_none_of_no_sep (l : List Char) (h : ¬ hasSeparator l) :
    dropHeaders l = none := by
  by_contra hne
  exact h ((hasSeparator_iff l).mpr hne)

/-! ## Claims about the SSE parser -/

/-- Claim C3: feeding any complete input to a fresh parser in arbitrary
consecutive chunks emits the same events in the same order, and ends in
the same parser state (hence the same lastEventId and retry interval),
as feeding the concatenated input in a single `feed` call. -/
theorem feed_chunk_boundary_independence (chunks : List (List Char)) :
    feedAll freshParser chunks = feed freshParser chunks.flatten := by
  cases chunks with
  | nil => rfl
  | cons a rest => rw [feedAll_cons_join, List.flatten_cons]

/-- Claim C2, counterexample to the claim as stated: a complete
single-cycle SSE input with a `data:` line and a terminating blank line,
fed to a genuinely fresh parser, emits no event at all (the fresh parser
is still waiting for the CRLF CRLF header separator), not exactly one. -/
theorem single_cycle_without_headers_emits_nothing :
    (feed freshParser (cs "data: hi\n\n")).2 = [] ∧
    (feed freshParser (cs "data: hi\n\n")).2.length ≠ 1 := by
  constructor
  · decide
  · decide

/-- Claim C2 (amended): for every complete single-cycle SSE input that
ends in a blank line and contains at least one `data:` line, a single
`feed()` of that input to a fresh parser WHOSE HTTP-HEADER SEPARATOR HAS
ALREADY BEEN CONSUMED emits exactly one event, whose data field equals
the per-line values joined by newline, in field order, with at most one
leading space stripped from each value. -/
theorem single_cycle_emits_one_event (ls : List (List Char))
    (hline : ∀ l ∈ ls, l ≠ [] ∧ '\n' ∉ l ∧ l.getLast? ≠ some '\r')
    (hdata : ∃ l, l ∈ ls ∧ lineField l = cs "data") :
    ∃ ev : SSEEvent,
      (feed { freshParser with httpHeadersParsed := true }
          ((ls.map (fun l => l ++ ['\n'])).flatten ++ ['\n'])).2 = [ev] ∧
      ev.data = List.intercalate ['\n'] (dataValues ls) := by
  obtain ⟨ld, hld, hfd⟩ := hdata
  have h1 : ∀ l ∈ ls, l ≠ [] := fun l hl => (hline l hl).1
  have h2 : ∀ l ∈ ls, '\n' ∉ l := fun l hl => (hline l hl).2.1
  have h3 : ∀ l ∈ ls, l.getLast? ≠ some '\r' := fun l hl => (hline l hl).2.2
  have hne := dataValues_ne_nil ls ld hld hfd
  rw [show ({ freshParser with httpHeadersParsed := true } : SSEParserState) =
    ⟨[], true, initEventState⟩ from rfl]
  rw [feed_mk_parsed, processBuffer_mk]
  rw [show ([] : List Char) ++ ((ls.map (fun l => l ++ ['\n'])).flatten ++ ['\n']) =
    (ls.map (fun l => l ++ ['\n'])).flatten ++ ['\n'] from by simp]
  rw [splitNl_cycle ls ['\n'] h2]
  rw [show splitNl ['\n'] = ([([] : List Char)], []) from rfl]
  simp only
  rw [List.map_append, map_chompCR_id ls h3]
  rw [show ([([] : List Char)] : List (List Char)).map chompCR = [[]] from rfl]
  obtain ⟨hev, hdat⟩ := processLines_cycle initEventState ls h1
  have hne2 : (processLines initEventState ls).1.eventData ≠ [] := by
    rw [hdat, show initEventState.eventData = ([] : List (List Char)) from rfl]
    simpa using hne
  refine ⟨{ type := (processLines initEventState ls).1.eventType,
            data := List.intercalate ['\n'] (processLines initEventState ls).1.eventData,
            id := (processLines initEventState ls).1.eventId,
            retry := (processLines initEventState ls).1.retryInterval }, ?_, ?_⟩
  · rw [processLines_append, hev]
    rw [processLines_cons_snd]
    rw [show processLine (processLines initEventState ls).1 [] =
      dispatchEvent (processLines initEventState ls).1 from rfl]
    unfold dispatchEvent
    rw [if_neg hne2]
    rfl
  · rw [hdat, show initEventState.eventData = ([] : List (List Char)) from rfl]
    simp

/-- Claim C2 (amended), witness: a concrete three-line cycle with an
`event:` line and two `data:` lines, one of which keeps one extra
leading space. -/
theorem single_cycle_emits_one_event_witness :
    ∃ ev : SSEEvent,
      (feed { freshParser with httpHeadersParsed := true }
          (([cs "event: greet", cs "data: hi", cs "data:  there"].map
            (fun l => l ++ ['\n'])).flatten ++ ['\n'])).2 = [ev] ∧
      ev.data = List.intercalate ['\n']
        (dataValues [cs "event: greet", cs "data: hi", cs "data:  there"]) :=
  single_cycle_emits_one_event
    [cs "event: greet", cs "data: hi", cs "data:  there"]
    (by decide)
    ⟨cs "data: hi", by decide⟩

/-- Claim C10: when the concatenation of all chunks fed to a fresh
parser never contains the CRLF CRLF header/body separator, the parser
emits no events, buffers every byte, and `getLastEventId` and
`getRetryInterval` stay undefined. -/
theorem no_separator_buffers_everything (chunks : List (List Char))
    (h : ¬ hasSeparator chunks.flatten) :
    feedAll freshParser chunks = ({ freshParser with buffer := chunks.flatten }, []) ∧
    getLastEventId (feedAll freshParser chunks).1 = none ∧
    getRetryInterval (feedAll freshParser chunks).1 = none := by
  have hmain : feedAll freshParser chunks =
      ({ freshParser with buffer := chunks.flatten }, []) := by
    cases chunks with
    | nil => rfl
    | cons a rest =>
      rw [feedAll_cons_join]
      rw [show (freshParser : SSEParserState) = ⟨[], false, initEventState⟩ from rfl]
      rw [feed_mk_unparsed]
      rw [show ([] : List Char) ++ (a ++ rest.flatten) = a ++ rest.flatten from by simp]
      have hnone : dropHeaders (a ++ rest.flatten) = none :=
        dropHeaders_none_of_no_sep _ (by simpa using h)
      rw [hnone]
      simp [List.flatten_cons]
  refine ⟨hmain, ?_, ?_⟩
  · rw [hmain]
    rfl
  · rw [hmain]
    rfl

/-- Claim C10, witness: pure LF-only SSE text (no HTTP prefix, hence no
CRLF CRLF) split in two chunks is entirely buffered and emits nothing. -/
theorem no_separator_buffers_everything_witness :
    feedAll freshParser [cs "data: x", cs "\n\nretry: 7\n\n"] =
      ({ freshParser with buffer := (([cs "data: x", cs "\n\nretry: 7\n\n"]).flatten :
          List Char) }, []) ∧
    getLastEventId (feedAll freshParser [cs "data: x", cs "\n\nretry: 7\n\n"]).1 = none ∧
    getRetryInterval (feedAll freshParser [cs "data: x", cs "\n\nretry: 7\n\n"]).1 = none :=
  no_separator_buffers_everything [cs "data: x", cs "\n\nretry: 7\n\n"]
    (fun hsep => by
      have := (hasSeparator_iff _).mp hsep
      exact this (by decide))

/-! ## Transport lemmas -/

theorem setState_fst (t : Transport) (s : TransportState) :
    (setState t s).1 = { t with state := s } := by
  unfold setState
  split_ifs with h
  · rw [← h]
  · rfl

theorem setState_state (t : Transport) (s : TransportState) :
    (setState t s).1.state = s := by
  rw [setState_fst]

theorem setState_snd (t : Transport) (s : TransportState) :
    (setState t s).2 = if t.state = s then [] else [Eff.stateChange s] := by
  unfold setState
  split_ifs <;> rfl

theorem cleanup_fst (t : Transport) :
    (cleanup t).1 =
      { t with
          pendingRequests := [],
          streamOpen := false,
          parser := freshParser,
          sessionId := none } := rfl

theorem disconnect_sessionId (t : Transport) : (disconnect t).1.sessionId = none := rfl

theorem disconnect_state (t : Transport) :
    (disconnect t).1.state = TransportState.CLOSED := by
  show (cleanup (setState t TransportState.CLOSED).1).1.state = _
  rw [cleanup_fst]
  show (setState t TransportState.CLOSED).1.state = _
  rw [setState_state]

theorem reconnectStep_max (t : Transport)
    (h : t.opts.maxReconnectAttempts ≤ t.reconnectAttempts) :
    reconnectStep t =
      ((setState t TransportState.DISCONNECTED).1,
       (setState t TransportState.DISCONNECTED).2 ++
         [Eff.disconnectedNotif (cs "Max reconnect attempts exceeded")]) := by
  unfold reconnectStep
  rw [if_pos h]

theorem reconnectStep_go (t : Transport)
    (h : ¬ t.opts.maxReconnectAttempts ≤ t.reconnectAttempts) :
    reconnectStep t =
      ((cleanup (setState { t with reconnectAttempts := t.reconnectAttempts + 1 }
          TransportState.RECONNECTING).1).1,
       (setState { t with reconnectAttempts := t.reconnectAttempts + 1 }
          TransportState.RECONNECTING).2 ++
         [Eff.reconnectingNotif (t.reconnectAttempts + 1)] ++
         (cleanup (setState { t with reconnectAttempts := t.reconnectAttempts + 1 }
           TransportState.RECONNECTING).1).2 ++
         [Eff.sleep (t.opts.reconnectDelay * 2 ^ (t.reconnectAttempts + 1 - 1))]) := by
  unfold reconnectStep
  rw [if_neg h]

/-! ## Claims about the reconnection policy and disconnect -/

/-- Claim C5: on a reconnection trigger with the attempt budget already
exhausted, the transport ends DISCONNECTED, emits the max-attempts
disconnect notification, schedules no backoff delay and makes no further
attempt; otherwise the counter increments, the state becomes
RECONNECTING, the reconnecting notification carries the new 1-indexed
attempt number and the scheduled delay is reconnectDelay * 2^(attempt-1). -/
theorem reconnect_policy_backoff (t : Transport) :
    (t.opts.maxReconnectAttempts ≤ t.reconnectAttempts →
      (reconnectStep t).1.state = TransportState.DISCONNECTED ∧
      Eff.disconnectedNotif (cs "Max reconnect attempts exceeded") ∈ (reconnectStep t).2 ∧
      (∀ d, Eff.sleep d ∉ (reconnectStep t).2) ∧
      (reconnectStep t).1.reconnectAttempts = t.reconnectAttempts) ∧
    (t.reconnectAttempts < t.opts.maxReconnectAttempts →
      (reconnectStep t).1.reconnectAttempts = t.reconnectAttempts + 1 ∧
      (reconnectStep t).1.state = TransportState.RECONNECTING ∧
      Eff.reconnectingNotif (t.reconnectAttempts + 1) ∈ (reconnectStep t).2 ∧
      Eff.sleep (t.opts.reconnectDelay * 2 ^ (t.reconnectAttempts + 1 - 1)) ∈
        (reconnectStep t).2) := by
  constructor
  · intro h
    rw [reconnectStep_max t h]
    refine ⟨setState_state t _, ?_, ?_, ?_⟩
    · rw [setState_snd]
      split_ifs <;> simp
    · intro d
      rw [setState_snd]
      split_ifs <;> simp
    · rw [setState_fst]
  · intro h
    have h' : ¬ t.opts.maxReconnectAttempts ≤ t.reconnectAttempts := by omega
    rw [reconnectStep_go t h']
    refine ⟨?_, ?_, ?_, ?_⟩
    · rw [cleanup_fst, setState_fst]
    · rw [cleanup_fst, setState_fst]
    · simp
    · simp

/-- Claim C5, witness: a transport at the budget (3 of 3) stops; a fresh
transport (0 of 3) backs off by reconnectDelay * 2^0. -/
theorem reconnect_policy_backoff_witness :
    ((reconnectStep tMax).1.state = TransportState.DISCONNECTED ∧
     Eff.disconnectedNotif (cs "Max reconnect attempts exceeded") ∈ (reconnectStep tMax).2 ∧
     (∀ d, Eff.sleep d ∉ (reconnectStep tMax).2) ∧
     (reconnectStep tMax).1.reconnectAttempts = tMax.reconnectAttempts) ∧
    ((reconnectStep (initTransport defaultOptions)).1.reconnectAttempts =
       (initTransport defaultOptions).reconnectAttempts + 1 ∧
     (reconnectStep (initTransport defaultOptions)).1.state = TransportState.RECONNECTING ∧
     Eff.reconnectingNotif ((initTransport defaultOptions).reconnectAttempts + 1) ∈
       (reconnectStep (initTransport defaultOptions)).2 ∧
     Eff.sleep ((initTransport defaultOptions).opts.reconnectDelay *
         2 ^ ((initTransport defaultOptions).reconnectAttempts + 1 - 1)) ∈
       (reconnectStep (initTransport defaultOptions)).2) :=
  ⟨(reconnect_policy_backoff tMax).1 (by decide),
   (reconnect_policy_backoff (initTransport defaultOptions)).2 (by decide)⟩

/-- Claim C7, counterexample to the claim as stated: a second
`disconnect()` call on an already-CLOSED transport re-emits the
disconnect notification (the emit is unconditional), instead of emitting
nothing. -/
theorem second_disconnect_reemits_notice :
    (disconnect (disconnect (initTransport defaultOptions)).1).2 =
      [Eff.disconnectedNotif (cs "User requested disconnect")] ∧
    (disconnect (disconnect (initTransport defaultOptions)).1).2 ≠ [] := by
  constructor
  · decide
  · decide

/-- Claim C7 (amended): `disconnect()` is idempotent on the transport
state and the CLOSED stateChange fires at most once: a second call
leaves the transport unchanged and emits nothing except the
(unconditionally re-emitted) disconnect notification; teardown is
re-run but finds nothing to release. -/
theorem disconnect_idempotent_on_state (t : Transport) :
    (disconnect t).1.state = TransportState.CLOSED ∧
    disconnect (disconnect t).1 =
      ((disconnect t).1, [Eff.disconnectedNotif (cs "User requested disconnect")]) := by
  refine ⟨disconnect_state t, ?_⟩
  have h1 : (disconnect t).1 =
      { t with
          state := TransportState.CLOSED,
          pendingRequests := [],
          streamOpen := false,
          parser := freshParser,
          sessionId := none } := by
    show (cleanup (setState t TransportState.CLOSED).1).1 = _
    rw [cleanup_fst, setState_fst]
  rw [h1]
  unfold disconnect cleanup setState
  simp

/-! ## Claims about the handshake wait and sends -/

/-- Claim C8, counterexample to the claim as stated: calling
`disconnect()` while a `connect()` is mid-handshake (state CONNECTING,
no session yet) leaves the `checkSession` poll in its keep-waiting
branch: `disconnect` sets the state to CLOSED, but the poll only detects
DISCONNECTED, so the handshake wait never observes the closure and that
`connect()` can only fail via its connect timeout. -/
theorem disconnect_during_connect_keeps_waiting :
    (connectStart (initTransport defaultOptions)).1.state = TransportState.CONNECTING ∧
    (connectStart (initTransport defaultOptions)).1.sessionId = none ∧
    checkSessionStep (disconnect (connectStart (initTransport defaultOptions)).1).1 =
      WaitStep.keepWaiting ∧
    checkSessionStep (disconnect (connectStart (initTransport defaultOptions)).1).1 ≠
      WaitStep.closedBeforeSession := by
  refine ⟨by decide, by decide, by decide, by decide⟩

/-- Claim C8 (amended): the handshake wait never observes a
"closed before session established" condition after `disconnect()` —
the poll keeps waiting on every disconnected-by-user transport — and it
observes that condition exactly when the transport reaches DISCONNECTED
without a session id (stream error/close without auto-reconnect). -/
theorem handshake_wait_observation :
    (∀ t : Transport, checkSessionStep (disconnect t).1 = WaitStep.keepWaiting) ∧
    (∀ t : Transport, t.sessionId = none → t.state = TransportState.DISCONNECTED →
      checkSessionStep t = WaitStep.closedBeforeSession) := by
  constructor
  · intro t
    unfold checkSessionStep
    rw [disconnect_sessionId, disconnect_state]
    rfl
  · intro t h1 h2
    unfold checkSessionStep
    rw [h1, h2]
    rfl

/-- Claim C8 (amended), witness. -/
theorem handshake_wait_observation_witness :
    checkSessionStep (disconnect tReady).1 = WaitStep.keepWaiting ∧
    checkSessionStep (initTransport defaultOptions) = WaitStep.closedBeforeSession :=
  ⟨handshake_wait_observation.1 tReady,
   handshake_wait_observation.2 (initTransport defaultOptions) rfl rfl⟩

/-- Claim C9, counterexample to the claim as stated: the failure surfaced
by `sendImmediate` for a 500 response is not `Server error 500: oops` —
the catch-all in `sendImmediate` wraps it as
`Failed to send message: Server error 500: oops`. -/
theorem send_error_message_is_wrapped :
    sendImmediateResult (Except.ok { status := 500, body := cs "oops" }) =
      Except.error (cs "Failed to send message: Server error 500: oops") ∧
    sendImmediateResult (Except.ok { status := 500, body := cs "oops" }) ≠
      Except.error (cs "Server error 500: oops") := by
  constructor
  · decide
  · decide

/-- Claim C9 (amended): a response status of 400 or above makes the
ready-path `send()` fail with
`Failed to send message: Server error <status>: <body>` (the server
error text wrapped by sendImmediate's catch), while the transport state
is left completely unchanged — in particular no reconnection, state
change or notification is triggered. -/
theorem send_server_error_failure (t : Transport)
    (disp : RpcMessage → Except (List Char) HttpResponse) (m : RpcMessage)
    (status : Nat) (body : List Char)
    (hready : isReady t = true)
    (hresp : disp m = Except.ok { status := status, body := body })
    (hstatus : 400 ≤ status) :
    send t disp m =
      (t, [Eff.httpPost m],
       Except.error (cs "Failed to send message: " ++ cs "Server error " ++
         Nat.toDigits 10 status ++ cs ": " ++ body)) := by
  unfold send
  rw [if_pos hready, hresp]
  show (t, [Eff.httpPost m],
    (if 400 ≤ status then
      Except.error (cs "Failed to send message: " ++ cs "Server error " ++
        Nat.toDigits 10 status ++ cs ": " ++ body)
    else Except.ok ())) = _
  rw [if_pos hstatus]

/-- Claim C9 (amended), witness. -/
theorem send_server_error_failure_witness :
    send tReady disp500 mA =
      (tReady, [Eff.httpPost mA],
       Except.error (cs "Failed to send message: " ++ cs "Server error " ++
         Nat.toDigits 10 500 ++ cs ": " ++ cs "oops")) :=
  send_server_error_failure tReady disp500 mA 500 (cs "oops") (by decide) rfl
    (by decide)

/-! ## Claims about the message-queue drain -/

theorem drainList_fail (disp : RpcMessage → Except (List Char) HttpResponse)
    (q1 : List RpcMessage) (m : RpcMessage) (q2 : List RpcMessage) (e : List Char)
    (hok : ∀ x ∈ q1, sendImmediateResult (disp x) = Except.ok ())
    (hfail : sendImmediateResult (disp m) = Except.error e) :
    drainList disp (q1 ++ m :: q2) =
      (q2, q1.map Eff.httpPost ++
        [Eff.httpPost m,
         Eff.logError (cs "Error processing queued messages: " ++ e)]) := by
  induction q1 with
  | nil => simp [drainList, hfail]
  | cons x q1 ih =>
    have hx := hok x (List.mem_cons_self x q1)
    have hrest : ∀ y ∈ q1, sendImmediateResult (disp y) = Except.ok () :=
      fun y hy => hok y (List.mem_cons_of_mem _ hy)
    simp [drainList, hx, ih hrest]

/-- Claim C6, counterexample to the claim as stated: with two queued
messages and a server answering 500, the drain stops at the first
failure — the second entry is never attempted and remains queued even
though the transport is still ready, contradicting "every remaining
queued entry is still attempted" and "the drain terminates only when the
queue is empty or the transport is no longer ready". -/
theorem drain_halts_on_failure_cex :
    (processQueuedMessages disp500 t6).1.messageQueue = [mB] ∧
    isReady (processQueuedMessages disp500 t6).1 = true ∧
    Eff.httpPost mB ∉ (processQueuedMessages disp500 t6).2 := by
  refine ⟨by decide, by decide, by decide⟩

/-- Claim C6 (amended): the `try/catch` of `processQueuedMessages` wraps
the whole `while` loop, so a dispatch failure surfaces in the log but
HALTS the drain: the failing entry has already been popped, every entry
before it was attempted in order, the remaining entries stay queued (the
loop does not reach them although the transport is still ready), and the
processing flag is released. -/
theorem drain_failure_stops_loop (disp : RpcMessage → Except (List Char) HttpResponse)
    (t : Transport) (q1 : List RpcMessage) (m : RpcMessage) (q2 : List RpcMessage)
    (e : List Char)
    (hq : t.messageQueue = q1 ++ m :: q2)
    (hflag : t.isProcessingQueue = false)
    (hready : isReady t = true)
    (hok : ∀ x ∈ q1, sendImmediateResult (disp x) = Except.ok ())
    (hfail : sendImmediateResult (disp m) = Except.error e) :
    processQueuedMessages disp t =
      ({ t with messageQueue := q2 },
       q1.map Eff.httpPost ++
         [Eff.httpPost m,
          Eff.logError (cs "Error processing queued messages: " ++ e)]) ∧
    (processQueuedMessages disp t).1.isProcessingQueue = false := by
  have hmain : processQueuedMessages disp t =
      ({ t with messageQueue := q2 },
       q1.map Eff.httpPost ++
         [Eff.httpPost m,
          Eff.logError (cs "Error processing queued messages: " ++ e)]) := by
    unfold processQueuedMessages
    rw [hflag]
    simp only [Bool.false_eq_true, if_false]
    rw [if_pos hready, hq, drainList_fail disp q1 m q2 e hok hfail]
  refine ⟨hmain, ?_⟩
  rw [hmain]
  exact hflag

/-- Claim C6 (amended), witness: queue `[mA, mB]`, server answers 500 —
the drain pops and attempts `mA`, fails, logs, and leaves `[mB]`. -/
theorem drain_failure_stops_loop_witness :
    processQueuedMessages disp500 t6 =
      ({ t6 with messageQueue := [mB] },
       ([] : List RpcMessage).map Eff.httpPost ++
         [Eff.httpPost mA,
          Eff.logError (cs "Error processing queued messages: " ++
            (cs "Failed to send message: " ++ cs "Server error " ++
              Nat.toDigits 10 500 ++ cs ": " ++ cs "oops"))]) ∧
    (processQueuedMessages disp500 t6).1.isProcessingQueue = false :=
  drain_failure_stops_loop disp500 t6 [] mA [mB]
    (cs "Failed to send message: " ++ cs "Server error " ++
      Nat.toDigits 10 500 ++ cs ": " ++ cs "oops")
    (by decide) (by decide) (by decide) (by intro x hx; cases hx) (by decide)

/-! ## Claims about response correlation -/

/-- Claim C4: a message-typed SSE event parsing to a JSON-RPC message
whose id matches a pending entry clears that entry's timer, removes the
entry, and completes the request — rejecting with the parsed
error.message when an error member is present, resolving with the parsed
result otherwise; a parsed message with no matching pending entry is
instead forwarded as an unsolicited message notification. -/
theorem message_event_correlation :
    (∀ (t : Transport) (msg : RpcMessage) (i : MsgId) (tm : Nat),
      msg.id = some i →
      getPending i t.pendingRequests = some tm →
      handleMessageEvent t (Except.ok msg) =
        ({ t with pendingRequests := delPending i t.pendingRequests },
         [Eff.clearTimer tm] ++
           (match msg.error with
            | some err => [Eff.rejectReq i err.message]
            | none => [Eff.resolveReq i msg.result]))) ∧
    (∀ (t : Transport) (msg : RpcMessage),
      (∀ i, msg.id = some i → getPending i t.pendingRequests = none) →
      handleMessageEvent t (Except.ok msg) = (t, [Eff.messageNotif msg])) := by
  have hok : ∀ (t : Transport) (msg : RpcMessage),
      handleMessageEvent t (Except.ok msg) =
        match msg.id with
        | some i =>
          match getPending i t.pendingRequests with
          | some tm =>
            match msg.error with
            | some err =>
              ({ t with pendingRequests := delPending i t.pendingRequests },
               [Eff.clearTimer tm, Eff.rejectReq i err.message])
            | none =>
              ({ t with pendingRequests := delPending i t.pendingRequests },
               [Eff.clearTimer tm, Eff.resolveReq i msg.result])
          | none => (t, [Eff.messageNotif msg])
        | none => (t, [Eff.messageNotif msg]) := fun t msg => rfl
  constructor
  · intro t msg i tm hid hp
    rw [hok, hid]
    simp only [hp]
    cases msg.error with
    | none => rfl
    | some err => rfl
  · intro t msg h
    rw [hok]
    cases hid : msg.id with
    | none => rfl
    | some i =>
      simp only [h i hid]

/-- Claim C4, witness: on `t4` (pending id 42 with timer 7), a result
message for id 42 resolves and removes the entry; an error message for
the non-pending id 43 is forwarded as a notification. -/
theorem message_event_correlation_witness :
    handleMessageEvent t4 (Except.ok msgRes) =
      ({ t4 with pendingRequests := delPending (MsgId.num 42) t4.pendingRequests },
       [Eff.clearTimer 7] ++ [Eff.resolveReq (MsgId.num 42) msgRes.result]) ∧
    handleMessageEvent t4 (Except.ok msgErr) = (t4, [Eff.messageNotif msgErr]) := by
  constructor
  · exact message_event_correlation.1 t4 msgRes (MsgId.num 42) 7 rfl (by decide)
  · refine message_event_correlation.2 t4 msgErr ?_
    intro i hi
    have h43 : i = MsgId.num 43 := by
      have : some (MsgId.num 43) = some i := hi
      exact (Option.some.inj this).symm
    rw [h43]
    decide

/-! ## Session-invariant lemmas and Claim C1 -/

theorem processQueuedMessages_pres (disp : RpcMessage → Except (List Char) HttpResponse)
    (t : Transport) :
    (processQueuedMessages disp t).1.state = t.state ∧
    (processQueuedMessages disp t).1.sessionId = t.sessionId := by
  unfold processQueuedMessages
  split_ifs <;> exact ⟨rfl, rfl⟩

theorem handleMessageEvent_pres (t : Transport) (p : Except (List Char) RpcMessage) :
    (handleMessageEvent t p).1.state = t.state ∧
    (handleMessageEvent t p).1.sessionId = t.sessionId := by
  cases p with
  | error e => exact ⟨rfl, rfl⟩
  | ok msg =>
    obtain ⟨mid, mm, mp, mr, me⟩ := msg
    cases mid with
    | none => exact ⟨rfl, rfl⟩
    | some i =>
      cases hgp : getPending i t.pendingRequests with
      | none => constructor <;> simp [handleMessageEvent, hgp]
      | some tm =>
        cases me with
        | none => constructor <;> simp [handleMessageEvent, hgp]
        | some err => constructor <;> simp [handleMessageEvent, hgp]

theorem request_pres (t : Transport) (disp : RpcMessage → Except (List Char) HttpResponse)
    (m : RpcMessage) (tm : Nat) :
    (request t disp m tm).1.state = t.state ∧
    (request t disp m tm).1.sessionId = t.sessionId := by
  unfold request send
  cases hid : m.id with
  | none => exact ⟨rfl, rfl⟩
  | some i =>
    by_cases hr : isReady { t with pendingRequests := setPending i tm t.pendingRequests } = true
    · cases hs2 : sendImmediateResult (disp m) with
      | ok u => constructor <;> simp [hr, hs2]
      | error e => constructor <;> simp [hr, hs2]
    · constructor <;> simp [hr]

theorem reconnectStep_pres (t : Transport)
    (hs : (reconnectStep t).1.state = TransportState.RECONNECTING ∨
          (reconnectStep t).1.state = TransportState.CLOSED) :
    (reconnectStep t).1.sessionId = none := by
  by_cases h : t.opts.maxReconnectAttempts ≤ t.reconnectAttempts
  · rcases hs with h2 | h2 <;>
      simp [reconnectStep_max t h, setState_state] at h2
  · simp only [reconnectStep_go t h]
    rfl

/-- Claim C1, counterexample to the claim as stated: with auto-reconnect
disabled, a stream error on a CONNECTED transport transitions it to
DISCONNECTED without clearing the session id (`handleStreamError` never
touches `_sessionId`), so a DISCONNECTED state with a non-null session
id is reachable. -/
theorem sessionId_nonnull_disconnected_reachable :
    Reachable opts0 badT ∧
    badT.state = TransportState.DISCONNECTED ∧
    badT.sessionId = some (cs "abc") := by
  refine ⟨?_, by decide, by decide⟩
  exact Reachable.streamErr (cs "boom")
    (Reachable.sse disp0 jparse0 epEv (Reachable.connectOk Reachable.init))

/-- Claim C1 (amended): on every reachable transport state, a non-null
session id can survive into DISCONNECTED (stream-error handling and the
exhausted-budget reconnect path do not clear it), but never into
RECONNECTING or CLOSED: the reconnect teardown, stream-close handling
and disconnect all clear the session id. -/
theorem sessionId_none_in_reconnecting_closed (opts : TransportOptions)
    (t : Transport) (hr : Reachable opts t)
    (hs : t.state = TransportState.RECONNECTING ∨ t.state = TransportState.CLOSED) :
    t.sessionId = none := by
  induction hr with
  | init => rcases hs with h | h <;> simp [initTransport] at h
  | sse disp jsonParse ev hR ih =>
    unfold handleSSEEvent at hs ⊢
    split_ifs at hs ⊢ with h1 h2 h3
    · cases hex : extractSessionId ev.data with
      | some tok =>
        simp [handleEndpointEvent, hex, processQueuedMessages_pres,
          setState_state] at hs
      | none =>
        simp only [handleEndpointEvent, hex] at hs ⊢
        exact ih hs
    · rw [(handleMessageEvent_pres _ _).2]
      exact ih (by rwa [(handleMessageEvent_pres _ _).1] at hs)
    · exact reconnectStep_pres _ hs
    · exact ih hs
  | streamErr e hR ih =>
    unfold handleStreamError at hs ⊢
    split_ifs at hs ⊢ with h1
    · exact reconnectStep_pres _ hs
    · rcases hs with h | h <;> simp [setState_state] at h
  | streamClose hR ih =>
    unfold handleStreamClose at hs ⊢
    split_ifs at hs ⊢ with h1
    · exact ih hs
    · dsimp only at hs ⊢
      split_ifs at hs ⊢ with h2
      · exact reconnectStep_pres _ hs
      · rcases hs with h | h <;> simp [setState_state] at h
  | disc hR ih => exact disconnect_sessionId _
  | connectOk hR ih =>
    unfold connectStart at hs ⊢
    split_ifs at hs ⊢ with h1
    · exact ih hs
    · rcases hs with h | h <;> simp [setState_state] at h
  | connectErr opened hR ih =>
    unfold connectFail at hs ⊢
    split_ifs at hs ⊢ with h1 h2
    · exact ih hs
    · rcases hs with h | h <;> simp [setState_state] at h
    · rcases hs with h | h <;> simp [setState_state] at h
  | sendStep disp m hR ih =>
    unfold send at hs ⊢
    split_ifs at hs ⊢ with h1
    · exact ih hs
    · exact ih hs
  | requestStep disp m tm hR ih =>
    rw [(request_pres _ _ _ _).2]
    exact ih (by rwa [(request_pres _ _ _ _).1] at hs)
  | drainStep disp hR ih =>
    rw [(processQueuedMessages_pres _ _).2]
    exact ih (by rwa [(processQueuedMessages_pres _ _).1] at hs)

/-- Claim C1 (amended), witness: the CLOSED state reached by a plain
`disconnect()` from a fresh transport has no session id. -/
theorem sessionId_none_in_reconnecting_closed_witness :
    (disconnect (initTransport opts0)).1.sessionId = none :=
  sessionId_none_in_reconnecting_closed opts0 (disconnect (initTransport opts0)).1
    (Reachable.disc Reachable.init) (Or.inr (by decide))
